import Mathlib

/-!
Verification of the Apache log pipeline (`src/main.py`) of the
apache-logs-dashboard repository.

The pipeline is shallowly embedded:

* a log line is a `List Char`; a file is a `List (List Char)` of lines;
* the regular expression `LOG_RE` is embedded as the committed parser
  `logMatch`.  Every quantified sub-pattern of `LOG_RE` (`\S+`, `[^\]]+`,
  `[^"]+`, `\d{3}`) is a run over a character class that excludes the
  delimiter that follows it in the pattern, so the greedy backtracking
  match of Python's `re` engine is deterministic and coincides with the
  committed longest-run tokenizer used here;
* `extract_apache_logs`, `transform_apache_logs`, `build_kpis` and
  `run_pipeline` mirror the functions of the same names in `src/main.py`;
  a Python exception becomes `Except.error`, a skipped line becomes an
  entry of a diagnostics list;
* `pd.to_datetime(..., format="%d/%b/%Y:%H:%M:%S %z", errors="coerce")`
  is embedded per element as `parse_ts : List Char → Option DateTime`,
  following CPython's `_strptime` token grammar for that format and the
  `datetime` constructor's range validation;
* character classes (`\S`, `\s`, `str.isdigit`, `str.strip`) are modelled
  over their ASCII semantics; floating point `round(x, 2)` is modelled
  over `ℚ`.  No claim below depends on non-ASCII whitespace/digit
  categories or on binary-float rounding of a nonzero rate.
-/

/-! ### Characters: ASCII whitespace and digits -/

/-- ASCII whitespace, the characters matched by `\s` (and stripped by
`str.strip`) on ASCII input. -/
def isWS (c : Char) : Bool :=
  c = ' ' || c = '\t' || c = '\n' || c = '\x0d' || c = '\x0b' || c = '\x0c'

/-- Matches `\S`: not whitespace. -/
def nonWS (c : Char) : Bool := !isWS c

/-- Numeric value of an ASCII digit character. -/
def digitVal (c : Char) : Nat := c.toNat - 48

/-- Value of a decimal digit string, as computed by Python `int`. -/
def natOfDigits (l : List Char) : Nat := l.foldl (fun n c => 10 * n + digitVal c) 0

/-! ### The committed parser for `LOG_RE` -/

/-- Split off the longest run of characters satisfying `p`. -/
def splitTok (p : Char → Bool) (l : List Char) : List Char × List Char :=
  (l.takeWhile p, l.dropWhile p)

/-- Match one-or-more characters of class `p` (a `p+` sub-pattern):
the longest run, which must be nonempty. -/
def tok1 (p : Char → Bool) (l : List Char) : Option (List Char × List Char) :=
  match splitTok p l with
  | ([], _) => none
  | (t, r) => some (t, r)

/-- Match one literal character. -/
def expectChar (c : Char) : List Char → Option (List Char)
  | [] => none
  | x :: r => if x = c then some r else none

/-- Match `\d{3}`: exactly three ASCII digits. -/
def digits3 : List Char → Option (List Char × List Char)
  | a :: b :: c :: r =>
    if a.isDigit && b.isDigit && c.isDigit then some ([a, b, c], r) else none
  | _ => none

/-- The capture groups of `LOG_RE` (`f1`, `f2` are the two anonymous
`\S+` placeholder fields between the IP and the timestamp). -/
structure MatchGroups where
  ip : List Char
  f1 : List Char
  f2 : List Char
  ts : List Char
  method : List Char
  path : List Char
  proto : List Char
  status : List Char
  size : List Char
deriving DecidableEq, Repr

/-- Stage 1 of `LOG_RE`: `^(?P<ip>\S+) \S+ \S+ \[` — the IP, the two
placeholder fields, and the opening bracket. -/
def matchPre (l0 : List Char) : Option ((List Char × List Char × List Char) × List Char) :=
  (tok1 nonWS l0).bind fun ip =>
  (expectChar ' ' ip.2).bind fun l2 =>
  (tok1 nonWS l2).bind fun f1 =>
  (expectChar ' ' f1.2).bind fun l4 =>
  (tok1 nonWS l4).bind fun f2 =>
  (expectChar ' ' f2.2).bind fun l6 =>
  (expectChar '[' l6).bind fun l7 =>
  some ((ip.1, f1.1, f2.1), l7)

/-- Stage 2 of `LOG_RE`: `(?P<ts>[^\]]+)\] "` — the timestamp text up to
the closing bracket, then the opening quote. -/
def matchTs (l7 : List Char) : Option (List Char × List Char) :=
  (tok1 (fun c => c != ']') l7).bind fun ts =>
  (expectChar ']' ts.2).bind fun l9 =>
  (expectChar ' ' l9).bind fun l10 =>
  (expectChar '"' l10).bind fun l11 =>
  some (ts.1, l11)

/-- Stage 3 of `LOG_RE`: `(?P<method>\S+) (?P<path>\S+) (?P<proto>[^"]+)" `
— the quoted request line. -/
def matchReq (l11 : List Char) : Option ((List Char × List Char × List Char) × List Char) :=
  (tok1 nonWS l11).bind fun method =>
  (expectChar ' ' method.2).bind fun l13 =>
  (tok1 nonWS l13).bind fun path =>
  (expectChar ' ' path.2).bind fun l15 =>
  (tok1 (fun c => c != '"') l15).bind fun proto =>
  (expectChar '"' proto.2).bind fun l17 =>
  (expectChar ' ' l17).bind fun l18 =>
  some ((method.1, path.1, proto.1), l18)

/-- Stage 4 of `LOG_RE`: `(?P<status>\d{3}) (?P<size>\S+)$` — status,
size, end of line. -/
def matchTail (l18 : List Char) : Option (List Char × List Char) :=
  (digits3 l18).bind fun status =>
  (expectChar ' ' status.2).bind fun l20 =>
  (tok1 nonWS l20).bind fun size =>
  if size.2 = [] then some (status.1, size.1) else none

/-- Embedding of `LOG_RE.match` as a committed parser:
`^(?P<ip>\S+) \S+ \S+ \[(?P<ts>[^\]]+)\] "(?P<method>\S+) (?P<path>\S+)
(?P<proto>[^"]+)" (?P<status>\d{3}) (?P<size>\S+)$`. -/
def logMatch (l0 : List Char) : Option MatchGroups :=
  (matchPre l0).bind fun pre =>
  (matchTs pre.2).bind fun ts =>
  (matchReq ts.2).bind fun req =>
  (matchTail req.2).bind fun tl =>
  some ⟨pre.1.1, pre.1.2.1, pre.1.2.2, ts.1,
        req.1.1, req.1.2.1, req.1.2.2, tl.1, tl.2⟩

/-- The text of a line whose capture groups are `g`:
`IP SP F1 SP F2 SP [TS] "METHOD SP PATH SP PROTO" STATUS SP SIZE`. -/
def assemble (g : MatchGroups) : List Char :=
  g.ip ++ ' ' :: (g.f1 ++ ' ' :: (g.f2 ++ ' ' :: '[' ::
    (g.ts ++ ']' :: ' ' :: '"' ::
      (g.method ++ ' ' :: (g.path ++ ' ' ::
        (g.proto ++ '"' :: ' ' :: (g.status ++ ' ' :: g.size)))))))

/-- The token constraints of the grammar: exactly the conditions under
which `assemble g` is a line matched by `LOG_RE` with groups `g`. -/
def goodGroups (g : MatchGroups) : Prop :=
  g.ip ≠ [] ∧ g.ip.all nonWS = true ∧
  g.f1 ≠ [] ∧ g.f1.all nonWS = true ∧
  g.f2 ≠ [] ∧ g.f2.all nonWS = true ∧
  g.ts ≠ [] ∧ g.ts.all (fun c => c != ']') = true ∧
  g.method ≠ [] ∧ g.method.all nonWS = true ∧
  g.path ≠ [] ∧ g.path.all nonWS = true ∧
  g.proto ≠ [] ∧ g.proto.all (fun c => c != '"') = true ∧
  g.status.length = 3 ∧ g.status.all Char.isDigit = true ∧
  g.size ≠ [] ∧ g.size.all nonWS = true

instance (g : MatchGroups) : Decidable (goodGroups g) := by
  unfold goodGroups; infer_instance

/-! ### `extract_apache_logs` -/

/-- One row of the extracted DataFrame: the groupdict of a matched line
with `status` and `size` converted to integers. -/
structure Row where
  ip : List Char
  ts : List Char
  method : List Char
  path : List Char
  proto : List Char
  status : Nat
  size : Nat
deriving DecidableEq, Repr

/-- Build a row from the capture groups:
`d["size"] = int(d["size"]) if d["size"].isdigit() else 0` and
`d["status"] = int(d["status"])`. -/
def rowOfGroups (g : MatchGroups) : Row :=
  { ip := g.ip, ts := g.ts, method := g.method, path := g.path, proto := g.proto,
    status := natOfDigits g.status,
    size := if g.size.all Char.isDigit then natOfDigits g.size else 0 }

/-- Python `str.strip` on ASCII input. -/
def pyStrip (l : List Char) : List Char :=
  ((l.dropWhile isWS).reverse.dropWhile isWS).reverse

/-- Result of extraction: the parsed rows plus the reported diagnostics,
one `(line number, stripped text)` pair per skipped non-matching line. -/
structure ExtractOut where
  rows : List Row
  skipped : List (Nat × List Char)
deriving DecidableEq, Repr

/-- The loop body of `extract_apache_logs`, carrying the 1-based line
number: strip the line, silently skip blank lines, report and skip
non-matching lines, keep the row of a matching line. -/
def extractFrom : Nat → List (List Char) → ExtractOut
  | _, [] => ⟨[], []⟩
  | n, line :: rest =>
    let s := pyStrip line
    let out := extractFrom (n + 1) rest
    if s = [] then out
    else
      match logMatch s with
      | none => ⟨out.rows, (n, s) :: out.skipped⟩
      | some g => ⟨rowOfGroups g :: out.rows, out.skipped⟩

/-- Model of `extract_apache_logs` of `src/main.py` on the file's lines. -/
def extract_apache_logs (lines : List (List Char)) : ExtractOut :=
  extractFrom 1 lines

/-! ### Timestamp parsing: `pd.to_datetime(..., format="%d/%b/%Y:%H:%M:%S %z",
errors="coerce")`, per element -/

/-- A parsed timestamp: wall-clock fields plus the UTC offset in seconds.
(`pandas` stores an instant; the wall-clock fields together with `off`
carry the same information and are what `strftime` renders.) -/
structure DateTime where
  year : Nat
  month : Nat
  day : Nat
  hour : Nat
  minute : Nat
  second : Nat
  off : Int
deriving DecidableEq, Repr

/-- A one-or-two digit numeric field of `_strptime`: a single digit at
least `lo1`, or two digits whose value lies in `[lo2, hi2]`
(e.g. `%d` is `3[01]|[12]\d|0[1-9]|[1-9]`, i.e. `num12 1 31 1`). -/
def num12 (lo2 hi2 lo1 : Nat) (l : List Char) : Option (Nat × List Char) :=
  match splitTok Char.isDigit l with
  | ([a], r) => if lo1 ≤ digitVal a then some (digitVal a, r) else none
  | ([a, b], r) =>
    let v := 10 * digitVal a + digitVal b
    if lo2 ≤ v ∧ v ≤ hi2 then some (v, r) else none
  | _ => none

/-- Matches `%Y`: exactly four digits. -/
def year4 : List Char → Option (Nat × List Char)
  | a :: b :: c :: d :: r =>
    if a.isDigit && b.isDigit && c.isDigit && d.isDigit then
      some (1000 * digitVal a + 100 * digitVal b + 10 * digitVal c + digitVal d, r)
    else none
  | _ => none

/-- The case-folded three-letter month abbreviations matched by `%b`
(C locale), in month order. -/
def monthAbbrevs : List (List Char) :=
  [['j', 'a', 'n'], ['f', 'e', 'b'], ['m', 'a', 'r'], ['a', 'p', 'r'],
   ['m', 'a', 'y'], ['j', 'u', 'n'], ['j', 'u', 'l'], ['a', 'u', 'g'],
   ['s', 'e', 'p'], ['o', 'c', 't'], ['n', 'o', 'v'], ['d', 'e', 'c']]

/-- Matches `%b`: three characters naming a month, case-insensitively. -/
def monthTok : List Char → Option (Nat × List Char)
  | a :: b :: c :: r =>
    match monthAbbrevs.indexOf? [a.toLower, b.toLower, c.toLower] with
    | none => none
    | some i => some (i + 1, r)
  | _ => none

/-- Literal whitespace in a `strptime` format matches `\s+`. -/
def ws1 (l : List Char) : Option (List Char) :=
  match splitTok isWS l with
  | ([], _) => none
  | (_, r) => some r

/-- The optional fraction `(\.\d{1,6})?` of `%z`.  A dot followed by more
than six digits leaves digits behind that make the overall full-string
match fail, so it is rejected here directly. -/
def parseFrac : List Char → Option (List Char)
  | '.' :: r =>
    match splitTok Char.isDigit r with
    | ([], _) => none
    | (ds, r2) => if ds.length ≤ 6 then some r2 else none
  | l => some l

/-- The optional seconds `(:?[0-5]\d(\.\d{1,6})?)?` of `%z`.  When the
group cannot match, the regex skips it; any unconsumed characters then
make the overall full-string match fail, which coincides with the
committed behaviour here. -/
def parseOffSec : List Char → Option (Nat × List Char)
  | ':' :: a :: b :: r =>
    if a.isDigit && digitVal a ≤ 5 && b.isDigit then
      match parseFrac r with
      | some r2 => some (10 * digitVal a + digitVal b, r2)
      | none => none
    else none
  | a :: b :: r =>
    if a.isDigit && digitVal a ≤ 5 && b.isDigit then
      match parseFrac r with
      | some r2 => some (10 * digitVal a + digitVal b, r2)
      | none => none
    else some (0, a :: b :: r)
  | l => some (0, l)

/-- Matches `%z`: `[+-]\d\d:?[0-5]\d(:?[0-5]\d(\.\d{1,6})?)?` or a literal `Z`.
Returns the offset in whole seconds (the microsecond fraction, when
present, is syntax-checked and discarded). -/
def parseOffset : List Char → Option (Int × List Char)
  | 'Z' :: r => some (0, r)
  | s :: a :: b :: r =>
    if (s = '+' || s = '-') && a.isDigit && b.isDigit then
      let hh := 10 * digitVal a + digitVal b
      let r1 := match r with
        | ':' :: r2 => r2
        | _ => r
      match r1 with
      | m1 :: m2 :: r2 =>
        if m1.isDigit && digitVal m1 ≤ 5 && m2.isDigit then
          let mm := 10 * digitVal m1 + digitVal m2
          match parseOffSec r2 with
          | some (ss, r3) =>
            let total : Int := (hh * 3600 + mm * 60 + ss : Nat)
            some (if s = '-' then -total else total, r3)
          | none => none
        else none
      | _ => none
    else none
  | _ => none

/-- Tokenize a timestamp against `%d/%b/%Y:%H:%M:%S %z`, requiring the
whole string to be consumed (CPython rejects unconsumed trailing text). -/
def tsTokenize (l : List Char) : Option DateTime := do
  let (day, l) ← num12 1 31 1 l
  let l ← expectChar '/' l
  let (month, l) ← monthTok l
  let l ← expectChar '/' l
  let (year, l) ← year4 l
  let l ← expectChar ':' l
  let (hour, l) ← num12 0 23 0 l
  let l ← expectChar ':' l
  let (minute, l) ← num12 0 59 0 l
  let l ← expectChar ':' l
  let (second, l) ← num12 0 61 0 l
  let l ← ws1 l
  let (off, l) ← parseOffset l
  if l = [] then some ⟨year, month, day, hour, minute, second, off⟩ else none

/-- Leap year rule of the proleptic Gregorian calendar. -/
def isLeap (y : Nat) : Bool := y % 4 = 0 && (y % 100 ≠ 0 || y % 400 = 0)

/-- Days in a month. -/
def daysInMonth (y m : Nat) : Nat :=
  if m = 2 then (if isLeap y then 29 else 28)
  else if m = 4 ∨ m = 6 ∨ m = 9 ∨ m = 11 then 30
  else 31

/-- The range checks of the `datetime`/`timezone` constructors: year in
`[MINYEAR, MAXYEAR]`, a real calendar day, fields in range, offset
strictly within a day.  (`_strptime` itself admits seconds up to 61 and
offset hours up to 99; the constructor then rejects them.) -/
def validDT (dt : DateTime) : Bool :=
  1 ≤ dt.year && dt.year ≤ 9999 &&
  1 ≤ dt.month && dt.month ≤ 12 &&
  1 ≤ dt.day && dt.day ≤ daysInMonth dt.year dt.month &&
  dt.hour ≤ 23 && dt.minute ≤ 59 && dt.second ≤ 59 &&
  dt.off.natAbs < 86400

/-- Per-element `pd.to_datetime(..., format="%d/%b/%Y:%H:%M:%S %z",
errors="coerce")`: `none` is `NaT`.  (The additional `pandas` epoch
bounds on nanosecond timestamps are not modelled; no claim depends on
them.) -/
def parse_ts (l : List Char) : Option DateTime :=
  match tsTokenize l with
  | none => none
  | some dt => if validDT dt then some dt else none

/-! ### `transform_apache_logs` -/

/-- Fixed-width decimal rendering: two digits. -/
def digitChar (d : Nat) : Char := Char.ofNat (48 + d)

/-- Zero-padded two-digit rendering, as `%M` (for values below 100). -/
def pad2 (n : Nat) : List Char := [digitChar (n / 10), digitChar (n % 10)]

/-- Zero-padded four-digit rendering, as `%Y` (for values below 10000). -/
def pad4 (n : Nat) : List Char := pad2 (n / 100) ++ pad2 (n % 100)

/-- Model of `timestamp.strftime("%Y-%m-%d %H:00:00")`: the hour bucket key. -/
def hourString (dt : DateTime) : List Char :=
  pad4 dt.year ++ '-' :: (pad2 dt.month ++ '-' :: (pad2 dt.day ++ ' ' ::
    (pad2 dt.hour ++ [':', '0', '0', ':', '0', '0'])))

/-- Model of `strftime("%Y-%m-%d %H:%M:%S")`: full wall-clock rendering. -/
def renderDT (dt : DateTime) : List Char :=
  pad4 dt.year ++ '-' :: (pad2 dt.month ++ '-' :: (pad2 dt.day ++ ' ' ::
    (pad2 dt.hour ++ ':' :: (pad2 dt.minute ++ ':' :: pad2 dt.second))))

/-- A timestamp truncated to its hour boundary. -/
def truncHour (dt : DateTime) : DateTime :=
  { dt with minute := 0, second := 0 }

/-- The wall-clock hour bucket of a timestamp, as data. -/
def hourBucket (dt : DateTime) : Nat × Nat × Nat × Nat :=
  (dt.year, dt.month, dt.day, dt.hour)

/-- Chronological (strict) order of two wall-clock hour buckets. -/
def hourBucketLt (a b : DateTime) : Prop :=
  a.year < b.year ∨ (a.year = b.year ∧
    (a.month < b.month ∨ (a.month = b.month ∧
      (a.day < b.day ∨ (a.day = b.day ∧ a.hour < b.hour)))))

/-- A canonical record: the columns of the transformed DataFrame. -/
structure Record where
  timestamp : DateTime
  ip : List Char
  method : List Char
  path : List Char
  proto : List Char
  status : Nat
  status_class : Nat
  size : Nat
  hour : List Char
  is_error : Bool
deriving DecidableEq, Repr

/-- The per-row effect of `transform_apache_logs`: rows whose timestamp
is `NaT` are removed by `dropna`; the rest get `hour`,
`status_class = status // 100` and `is_error = status >= 400`. -/
def toRecord (r : Row) : Option Record :=
  match parse_ts r.ts with
  | none => none
  | some dt =>
    some { timestamp := dt, ip := r.ip, method := r.method, path := r.path,
           proto := r.proto, status := r.status,
           status_class := r.status / 100, size := r.size,
           hour := hourString dt,
           is_error := decide (400 ≤ r.status) }

/-- The `ValueError` message raised on an empty DataFrame. -/
def emptyErrMsg : String := "❌ ما انقرأ ولا سطر. تأكدي أن app.log بصيغة Apache."

/-- Model of `transform_apache_logs` of `src/main.py`: raise on an empty frame,
otherwise parse timestamps, drop `NaT` rows, derive columns. -/
def transform_apache_logs (rows : List Row) : Except String (List Record) :=
  if rows = [] then Except.error emptyErrMsg
  else Except.ok (rows.filterMap toRecord)

/-! ### String order (Python `<` on strings, by code point) -/

/-- Strict lexicographic order on strings by code point, as used by
Python string comparison and by `pandas` when sorting object columns. -/
def lexLt : List Char → List Char → Bool
  | _, [] => false
  | [], _ :: _ => true
  | a :: as, b :: bs =>
    if a.toNat < b.toNat then true
    else if b.toNat < a.toNat then false
    else lexLt as bs

/-- Reflexive closure: `a ≤ b` iff `¬ b < a`. -/
def lexLe (a b : List Char) : Bool := !lexLt b a

/-! ### `build_kpis` -/

/-- The single `summary` row. -/
structure Summary where
  total_requests : Nat
  errors_4xx : Nat
  errors_5xx : Nat
  error_rate_pct : ℚ
deriving DecidableEq, Repr

/-- All aggregate outputs of `build_kpis`. -/
structure Kpis where
  summary : Summary
  errors_by_path : List (List Char × Nat)
  errors_by_ip : List (List Char × Nat)
  errors_by_hour : List (List Char × Nat)
deriving DecidableEq, Repr

/-- Model of `round(x, 2)` over `ℚ` (Python rounds the nearest binary double
half-to-even; on the exact rationals used here the difference can only
show at ties, on which no claim depends). -/
def round2 (q : ℚ) : ℚ := (round (q * 100) : ℤ) / 100

/-- Model of `df[df["is_error"]]`. -/
def errorsOf (recs : List Record) : List Record := recs.filter (·.is_error)

/-- Model of `groupby(key).size().reset_index()`: one `(key, count)` pair per
distinct key, keys in ascending order (`groupby` sorts its keys). -/
def groupCounts (key : Record → List Char) (recs : List Record) :
    List (List Char × Nat) :=
  (List.insertionSort (fun a b => lexLe a b = true) ((recs.map key).dedup)).map
    (fun k => (k, recs.countP (fun r => key r == k)))

/-- Model of `sort_values("error_count", ascending=False)` — ties are in
implementation-defined order in `pandas` (non-stable quicksort), so any
correctly ordered arrangement models it. -/
def sortByCountDesc (l : List (List Char × Nat)) : List (List Char × Nat) :=
  List.insertionSort (fun a b => b.2 ≤ a.2) l

/-- Model of `sort_values("hour")`. -/
def sortByKeyAsc (l : List (List Char × Nat)) : List (List Char × Nat) :=
  List.insertionSort (fun a b => lexLe a.1 b.1 = true) l

/-- Model of `build_kpis` of `src/main.py`. -/
def build_kpis (recs : List Record) : Kpis :=
  let errs := errorsOf recs
  { summary :=
      { total_requests := recs.length,
        errors_4xx := recs.countP (·.status_class == 4),
        errors_5xx := recs.countP (·.status_class == 5),
        error_rate_pct :=
          if recs.length ≠ 0 then round2 ((errs.length : ℚ) / recs.length * 100)
          else 0 },
    errors_by_path := sortByCountDesc (groupCounts (·.path) errs),
    errors_by_ip := sortByCountDesc (groupCounts (·.ip) errs),
    errors_by_hour := sortByKeyAsc (groupCounts (·.hour) errs) }

/-! ### `run_pipeline` -/

/-- Model of `run_pipeline` of `src/main.py`, up to the export step (which only
performs I/O): extract, transform (which may raise), aggregate.  The
result carries the canonical records, the aggregates and the per-line
diagnostics reported during extraction. -/
def run_pipeline (lines : List (List Char)) :
    Except String (List Record × Kpis × List (Nat × List Char)) :=
  let ex := extract_apache_logs lines
  match transform_apache_logs ex.rows with
  | Except.error e => Except.error e
  | Except.ok recs => Except.ok (recs, build_kpis recs, ex.skipped)

/-! ### Parser lemmas: `logMatch` matches exactly the grammar -/

theorem takeWhile_append_all {p : Char → Bool} {t : List Char} (h : t.all p = true)
    (r : List Char) : (t ++ r).takeWhile p = t ++ r.takeWhile p := by
  induction t with
  | nil => simp
  | cons a as ih =>
    simp only [List.all_cons, Bool.and_eq_true] at h
    simp [List.takeWhile_cons, h.1, ih h.2]

theorem dropWhile_append_all {p : Char → Bool} {t : List Char} (h : t.all p = true)
    (r : List Char) : (t ++ r).dropWhile p = r.dropWhile p := by
  induction t with
  | nil => simp
  | cons a as ih =>
    simp only [List.all_cons, Bool.and_eq_true] at h
    simp [List.dropWhile_cons, h.1, ih h.2]

theorem tok1_sound {p : Char → Bool} {l : List Char} {x : List Char × List Char}
    (h : tok1 p l = some x) : x.1 ≠ [] ∧ x.1.all p = true ∧ l = x.1 ++ x.2 := by
  unfold tok1 splitTok at h
  cases ht : l.takeWhile p with
  | nil => rw [ht] at h; cases h
  | cons a as =>
    rw [ht] at h
    cases h
    refine ⟨by simp, ?_, ?_⟩
    · rw [List.all_eq_true]
      intro c hc
      exact List.mem_takeWhile_imp (ht ▸ hc)
    · rw [← ht]; exact (List.takeWhile_append_dropWhile p l).symm

theorem tok1_append_cons {p : Char → Bool} {t : List Char} {c : Char} {r : List Char}
    (h1 : t ≠ []) (h2 : t.all p = true) (h3 : p c = false) :
    tok1 p (t ++ c :: r) = some (t, c :: r) := by
  unfold tok1 splitTok
  rw [takeWhile_append_all h2, dropWhile_append_all h2]
  rw [List.takeWhile_cons_of_neg (by simp [h3]), List.dropWhile_cons_of_neg (by simp [h3])]
  rw [List.append_nil]
  cases t with
  | nil => exact absurd rfl h1
  | cons a as => rfl

theorem tok1_all {p : Char → Bool} {t : List Char} (h1 : t ≠ []) (h2 : t.all p = true) :
    tok1 p t = some (t, []) := by
  unfold tok1 splitTok
  rw [List.takeWhile_eq_self_iff.mpr, List.dropWhile_eq_nil_iff.mpr]
  · cases t with
    | nil => exact absurd rfl h1
    | cons a as => rfl
  · intro x hx; exact (List.all_eq_true.mp h2) x hx
  · intro x hx; exact (List.all_eq_true.mp h2) x hx

theorem expectChar_sound {c : Char} {l r : List Char} (h : expectChar c l = some r) :
    l = c :: r := by
  cases l with
  | nil => cases h
  | cons x xs =>
    simp only [expectChar] at h
    by_cases hx : x = c
    · rw [if_pos hx] at h
      cases h
      rw [hx]
    · rw [if_neg hx] at h
      cases h

theorem expectChar_cons (c : Char) (r : List Char) : expectChar c (c :: r) = some r := by
  simp [expectChar]

theorem digits3_sound {l : List Char} {x : List Char × List Char}
    (h : digits3 l = some x) :
    x.1.length = 3 ∧ x.1.all Char.isDigit = true ∧ l = x.1 ++ x.2 := by
  match l with
  | [] => cases h
  | [a] => cases h
  | [a, b] => cases h
  | a :: b :: c :: r =>
    simp only [digits3] at h
    by_cases hd : (a.isDigit && b.isDigit && c.isDigit) = true
    · rw [if_pos hd] at h
      cases h
      simp only [Bool.and_eq_true] at hd
      refine ⟨rfl, by simp [hd.1.1, hd.1.2, hd.2], rfl⟩
    · rw [if_neg hd] at h; cases h

theorem digits3_cons {a b c : Char} (r : List Char)
    (ha : a.isDigit = true) (hb : b.isDigit = true) (hc : c.isDigit = true) :
    digits3 (a :: b :: c :: r) = some ([a, b, c], r) := by
  simp [digits3, ha, hb, hc]

theorem matchPre_sound {l : List Char} {x : (List Char × List Char × List Char) × List Char}
    (h : matchPre l = some x) :
    x.1.1 ≠ [] ∧ x.1.1.all nonWS = true ∧
    x.1.2.1 ≠ [] ∧ x.1.2.1.all nonWS = true ∧
    x.1.2.2 ≠ [] ∧ x.1.2.2.all nonWS = true ∧
    l = x.1.1 ++ ' ' :: (x.1.2.1 ++ ' ' :: (x.1.2.2 ++ ' ' :: '[' :: x.2)) := by
  unfold matchPre at h
  rw [Option.bind_eq_some] at h; obtain ⟨ip, hip, h⟩ := h
  rw [Option.bind_eq_some] at h; obtain ⟨l2, hl2, h⟩ := h
  rw [Option.bind_eq_some] at h; obtain ⟨f1, hf1, h⟩ := h
  rw [Option.bind_eq_some] at h; obtain ⟨l4, hl4, h⟩ := h
  rw [Option.bind_eq_some] at h; obtain ⟨f2, hf2, h⟩ := h
  rw [Option.bind_eq_some] at h; obtain ⟨l6, hl6, h⟩ := h
  rw [Option.bind_eq_some] at h; obtain ⟨l7, hl7, h⟩ := h
  cases h
  obtain ⟨hipne, hipall, hipeq⟩ := tok1_sound hip
  obtain ⟨hf1ne, hf1all, hf1eq⟩ := tok1_sound hf1
  obtain ⟨hf2ne, hf2all, hf2eq⟩ := tok1_sound hf2
  refine ⟨hipne, hipall, hf1ne, hf1all, hf2ne, hf2all, ?_⟩
  rw [hipeq, expectChar_sound hl2, hf1eq, expectChar_sound hl4, hf2eq,
    expectChar_sound hl6, expectChar_sound hl7]

theorem matchTs_sound {l : List Char} {x : List Char × List Char}
    (h : matchTs l = some x) :
    x.1 ≠ [] ∧ x.1.all (fun c => c != ']') = true ∧
    l = x.1 ++ ']' :: ' ' :: '"' :: x.2 := by
  unfold matchTs at h
  rw [Option.bind_eq_some] at h; obtain ⟨ts, hts, h⟩ := h
  rw [Option.bind_eq_some] at h; obtain ⟨l9, hl9, h⟩ := h
  rw [Option.bind_eq_some] at h; obtain ⟨l10, hl10, h⟩ := h
  rw [Option.bind_eq_some] at h; obtain ⟨l11, hl11, h⟩ := h
  cases h
  obtain ⟨htsne, htsall, htseq⟩ := tok1_sound hts
  refine ⟨htsne, htsall, ?_⟩
  rw [htseq, expectChar_sound hl9, expectChar_sound hl10, expectChar_sound hl11]

theorem matchReq_sound {l : List Char} {x : (List Char × List Char × List Char) × List Char}
    (h : matchReq l = some x) :
    x.1.1 ≠ [] ∧ x.1.1.all nonWS = true ∧
    x.1.2.1 ≠ [] ∧ x.1.2.1.all nonWS = true ∧
    x.1.2.2 ≠ [] ∧ x.1.2.2.all (fun c => c != '"') = true ∧
    l = x.1.1 ++ ' ' :: (x.1.2.1 ++ ' ' :: (x.1.2.2 ++ '"' :: ' ' :: x.2)) := by
  unfold matchReq at h
  rw [Option.bind_eq_some] at h; obtain ⟨method, hm, h⟩ := h
  rw [Option.bind_eq_some] at h; obtain ⟨l13, hl13, h⟩ := h
  rw [Option.bind_eq_some] at h; obtain ⟨path, hp, h⟩ := h
  rw [Option.bind_eq_some] at h; obtain ⟨l15, hl15, h⟩ := h
  rw [Option.bind_eq_some] at h; obtain ⟨proto, hpr, h⟩ := h
  rw [Option.bind_eq_some] at h; obtain ⟨l17, hl17, h⟩ := h
  rw [Option.bind_eq_some] at h; obtain ⟨l18, hl18, h⟩ := h
  cases h
  obtain ⟨hmne, hmall, hmeq⟩ := tok1_sound hm
  obtain ⟨hpne, hpall, hpeq⟩ := tok1_sound hp
  obtain ⟨hprne, hprall, hpreq⟩ := tok1_sound hpr
  refine ⟨hmne, hmall, hpne, hpall, hprne, hprall, ?_⟩
  rw [hmeq, expectChar_sound hl13, hpeq, expectChar_sound hl15, hpreq,
    expectChar_sound hl17, expectChar_sound hl18]

theorem matchTail_sound {l : List Char} {x : List Char × List Char}
    (h : matchTail l = some x) :
    x.1.length = 3 ∧ x.1.all Char.isDigit = true ∧
    x.2 ≠ [] ∧ x.2.all nonWS = true ∧
    l = x.1 ++ ' ' :: x.2 := by
  unfold matchTail at h
  rw [Option.bind_eq_some] at h; obtain ⟨status, hst, h⟩ := h
  rw [Option.bind_eq_some] at h; obtain ⟨l20, hl20, h⟩ := h
  rw [Option.bind_eq_some] at h; obtain ⟨size, hsz, h⟩ := h
  by_cases hnil : size.2 = []
  swap
  · rw [if_neg hnil] at h; cases h
  rw [if_pos hnil] at h
  cases h
  obtain ⟨hstlen, hstall, hsteq⟩ := digits3_sound hst
  obtain ⟨hszne, hszall, hszeq⟩ := tok1_sound hsz
  refine ⟨hstlen, hstall, hszne, hszall, ?_⟩
  rw [hsteq, expectChar_sound hl20, hszeq, hnil, List.append_nil]

/-- Soundness of the committed parser: a successful match can only be a
line assembled from grammar-conforming tokens, and the groups are those
tokens. -/
theorem logMatch_sound {l : List Char} {g : MatchGroups} (h : logMatch l = some g) :
    goodGroups g ∧ l = assemble g := by
  unfold logMatch at h
  rw [Option.bind_eq_some] at h; obtain ⟨pre, hpre, h⟩ := h
  rw [Option.bind_eq_some] at h; obtain ⟨ts, hts, h⟩ := h
  rw [Option.bind_eq_some] at h; obtain ⟨req, hreq, h⟩ := h
  rw [Option.bind_eq_some] at h; obtain ⟨tl, htl, h⟩ := h
  cases h
  obtain ⟨h1, h2, h3, h4, h5, h6, hpreeq⟩ := matchPre_sound hpre
  obtain ⟨h7, h8, htseq⟩ := matchTs_sound hts
  obtain ⟨h9, h10, h11, h12, h13, h14, hreqeq⟩ := matchReq_sound hreq
  obtain ⟨h15, h16, h17, h18, htleq⟩ := matchTail_sound htl
  refine ⟨⟨h1, h2, h3, h4, h5, h6, h7, h8, h9, h10, h11, h12, h13, h14,
    h15, h16, h17, h18⟩, ?_⟩
  rw [hpreeq, htseq, hreqeq, htleq]
  simp [assemble]

theorem matchPre_complete {ip f1 f2 : List Char} (rest : List Char)
    (h1 : ip ≠ []) (h2 : ip.all nonWS = true)
    (h3 : f1 ≠ []) (h4 : f1.all nonWS = true)
    (h5 : f2 ≠ []) (h6 : f2.all nonWS = true) :
    matchPre (ip ++ ' ' :: (f1 ++ ' ' :: (f2 ++ ' ' :: '[' :: rest))) =
      some ((ip, f1, f2), rest) := by
  unfold matchPre
  rw [tok1_append_cons h1 h2 (by decide)]
  simp only [Option.some_bind]
  rw [expectChar_cons]
  simp only [Option.some_bind]
  rw [tok1_append_cons h3 h4 (by decide)]
  simp only [Option.some_bind]
  rw [expectChar_cons]
  simp only [Option.some_bind]
  rw [tok1_append_cons h5 h6 (by decide)]
  simp only [Option.some_bind]
  rw [expectChar_cons]
  simp only [Option.some_bind]
  rw [expectChar_cons]
  simp only [Option.some_bind]

theorem matchTs_complete {ts : List Char} (rest : List Char)
    (h1 : ts ≠ []) (h2 : ts.all (fun c => c != ']') = true) :
    matchTs (ts ++ ']' :: ' ' :: '"' :: rest) = some (ts, rest) := by
  unfold matchTs
  rw [tok1_append_cons h1 h2 (by decide)]
  simp only [Option.some_bind]
  rw [expectChar_cons]
  simp only [Option.some_bind]
  rw [expectChar_cons]
  simp only [Option.some_bind]
  rw [expectChar_cons]
  simp only [Option.some_bind]

theorem matchReq_complete {method path proto : List Char} (rest : List Char)
    (h1 : method ≠ []) (h2 : method.all nonWS = true)
    (h3 : path ≠ []) (h4 : path.all nonWS = true)
    (h5 : proto ≠ []) (h6 : proto.all (fun c => c != '"') = true) :
    matchReq (method ++ ' ' :: (path ++ ' ' :: (proto ++ '"' :: ' ' :: rest))) =
      some ((method, path, proto), rest) := by
  unfold matchReq
  rw [tok1_append_cons h1 h2 (by decide)]
  simp only [Option.some_bind]
  rw [expectChar_cons]
  simp only [Option.some_bind]
  rw [tok1_append_cons h3 h4 (by decide)]
  simp only [Option.some_bind]
  rw [expectChar_cons]
  simp only [Option.some_bind]
  rw [tok1_append_cons h5 h6 (by decide)]
  simp only [Option.some_bind]
  rw [expectChar_cons]
  simp only [Option.some_bind]
  rw [expectChar_cons]
  simp only [Option.some_bind]

theorem matchTail_complete {status size : List Char}
    (h1 : status.length = 3) (h2 : status.all Char.isDigit = true)
    (h3 : size ≠ []) (h4 : size.all nonWS = true) :
    matchTail (status ++ ' ' :: size) = some (status, size) := by
  obtain ⟨a, b, c, habc⟩ := List.length_eq_three.mp h1
  subst habc
  simp only [List.all_cons, List.all_nil, Bool.and_eq_true, Bool.and_true] at h2
  unfold matchTail
  simp only [List.cons_append, List.nil_append]
  rw [digits3_cons _ h2.1 h2.2.1 h2.2.2]
  simp only [Option.some_bind]
  rw [expectChar_cons]
  simp only [Option.some_bind]
  rw [tok1_all h3 h4]
  simp

/-- Completeness of the committed parser: a line assembled from
grammar-conforming tokens matches, recovering exactly those tokens. -/
theorem logMatch_complete {g : MatchGroups} (h : goodGroups g) :
    logMatch (assemble g) = some g := by
  obtain ⟨h1, h2, h3, h4, h5, h6, h7, h8, h9, h10, h11, h12, h13, h14,
    h15, h16, h17, h18⟩ := h
  unfold logMatch assemble
  rw [matchPre_complete _ h1 h2 h3 h4 h5 h6]
  simp only [Option.some_bind]
  rw [matchTs_complete _ h7 h8]
  simp only [Option.some_bind]
  rw [matchReq_complete _ h9 h10 h11 h12 h13 h14]
  simp only [Option.some_bind]
  rw [matchTail_complete h15 h16 h17 h18]
  simp only [Option.some_bind]

/-! ### Lemmas about the string order -/

theorem char_toNat_inj {a b : Char} (h : a.toNat = b.toNat) : a = b := by
  have h1 : Char.ofNat a.toNat = Char.ofNat b.toNat := by rw [h]
  rwa [Char.ofNat_toNat, Char.ofNat_toNat] at h1

theorem lexLt_irrefl (l : List Char) : lexLt l l = false := by
  induction l with
  | nil => rfl
  | cons a as ih => simp [lexLt, ih]

theorem lexLt_asymm {a b : List Char} (h : lexLt a b = true) : lexLt b a = false := by
  induction a generalizing b with
  | nil =>
    cases b with
    | nil => simp [lexLt] at h
    | cons y ys => rfl
  | cons x xs ih =>
    cases b with
    | nil => simp [lexLt] at h
    | cons y ys =>
      simp only [lexLt] at h ⊢
      rcases Nat.lt_trichotomy x.toNat y.toNat with h1 | h1 | h1
      · simp [Nat.not_lt.mpr (Nat.le_of_lt h1), h1]
      · simp only [h1, lt_irrefl, if_false] at h ⊢
        exact ih h
      · simp [h1, Nat.not_lt.mpr (Nat.le_of_lt h1)] at h

theorem lexLt_resolve {a b c : List Char} (h : lexLt c a = true) :
    lexLt c b = true ∨ lexLt b a = true := by
  induction c generalizing a b with
  | nil =>
    cases a with
    | nil => simp [lexLt] at h
    | cons x as =>
      cases b with
      | nil => right; rfl
      | cons y bs => left; rfl
  | cons z cs ih =>
    cases a with
    | nil => simp [lexLt] at h
    | cons x as =>
      cases b with
      | nil => right; rfl
      | cons y bs =>
        simp only [lexLt] at h ⊢
        rcases Nat.lt_trichotomy z.toNat x.toNat with h1 | h1 | h1
        · rcases Nat.lt_trichotomy z.toNat y.toNat with h2 | h2 | h2
          · left; simp [h2]
          · right
            have : y.toNat < x.toNat := by omega
            simp [this]
          · right
            have : y.toNat < x.toNat := by omega
            simp [this]
        · rw [h1] at h
          simp only [lt_irrefl, if_false] at h
          rcases Nat.lt_trichotomy z.toNat y.toNat with h2 | h2 | h2
          · left; simp [h2]
          · rcases @ih as bs h with h3 | h3
            · left
              have : ¬z.toNat < y.toNat := by omega
              simp [this, ← h2, h3]
            · right
              have hyx : ¬y.toNat < x.toNat := by omega
              have hxy : ¬x.toNat < y.toNat := by omega
              simp [hyx, hxy, h3]
          · right
            have : y.toNat < x.toNat := by omega
            simp [this]
        · simp [Nat.not_lt.mpr (Nat.le_of_lt h1), h1] at h

theorem lexLe_total (a b : List Char) : lexLe a b = true ∨ lexLe b a = true := by
  unfold lexLe
  by_cases h : lexLt b a = true
  · right
    rw [lexLt_asymm h]
    rfl
  · left
    simp [Bool.not_eq_true] at h
    rw [h]
    rfl

theorem lexLe_trans {a b c : List Char} (h1 : lexLe a b = true) (h2 : lexLe b c = true) :
    lexLe a c = true := by
  unfold lexLe at h1 h2 ⊢
  simp only [Bool.not_eq_true', Bool.not_eq_true] at h1 h2 ⊢
  by_contra hc
  simp only [Bool.not_eq_false] at hc
  rcases lexLt_resolve hc with h3 | h3
  · rw [h2] at h3; cases h3
  · rw [h1] at h3; cases h3

theorem lexLt_cons_same (c : Char) (as bs : List Char) :
    lexLt (c :: as) (c :: bs) = lexLt as bs := by
  simp [lexLt]

theorem lexLt_append_congr {xs ys : List Char} (as bs : List Char)
    (h : xs.length = ys.length) :
    (lexLt (xs ++ as) (ys ++ bs) = true ↔
      (lexLt xs ys = true ∨ (xs = ys ∧ lexLt as bs = true))) := by
  induction xs generalizing ys with
  | nil =>
    cases ys with
    | nil => simp [lexLt]
    | cons y ys => simp at h
  | cons x xs ih =>
    cases ys with
    | nil => simp at h
    | cons y ys =>
      simp only [List.length_cons, Nat.add_right_cancel_iff] at h
      simp only [List.cons_append, lexLt]
      rcases Nat.lt_trichotomy x.toNat y.toNat with h1 | h1 | h1
      · have hne : x ≠ y := fun he => by rw [he] at h1; exact lt_irrefl _ h1
        simp [h1, hne]
      · have hxy : x = y := char_toNat_inj h1
        subst hxy
        simp only [lt_self_iff_false, if_false, List.cons.injEq, true_and]
        exact ih h
      · have hne : x ≠ y := fun he => by rw [he] at h1; exact lt_irrefl _ h1
        simp [h1, Nat.not_lt.mpr (Nat.le_of_lt h1), hne]

theorem eq_append_congr {xs ys : List Char} (as bs : List Char)
    (h : xs.length = ys.length) :
    (xs ++ as = ys ++ bs) ↔ (xs = ys ∧ as = bs) := by
  constructor
  · intro he
    exact List.append_inj he h
  · rintro ⟨rfl, rfl⟩
    rfl

/-! ### Zero-padded rendering respects the string order -/

theorem digitChar_toNat {d : Nat} (h : d ≤ 9) : (digitChar d).toNat = 48 + d := by
  interval_cases d <;> rfl

theorem pad2_lt_iff {m n : Nat} (hm : m ≤ 99) (hn : n ≤ 99) :
    (lexLt (pad2 m) (pad2 n) = true) ↔ m < n := by
  have d1 : (digitChar (m / 10)).toNat = 48 + m / 10 := digitChar_toNat (by omega)
  have d2 : (digitChar (m % 10)).toNat = 48 + m % 10 := digitChar_toNat (by omega)
  have d3 : (digitChar (n / 10)).toNat = 48 + n / 10 := digitChar_toNat (by omega)
  have d4 : (digitChar (n % 10)).toNat = 48 + n % 10 := digitChar_toNat (by omega)
  simp only [pad2, lexLt, d1, d2, d3, d4]
  split_ifs <;> simp <;> omega

theorem pad2_inj {m n : Nat} (hm : m ≤ 99) (hn : n ≤ 99) :
    pad2 m = pad2 n ↔ m = n := by
  constructor
  · intro h
    simp only [pad2, List.cons.injEq, and_true] at h
    have e1 := congrArg Char.toNat h.1
    have e2 := congrArg Char.toNat h.2
    rw [@digitChar_toNat (m / 10) (by omega), @digitChar_toNat (n / 10) (by omega)] at e1
    rw [@digitChar_toNat (m % 10) (by omega), @digitChar_toNat (n % 10) (by omega)] at e2
    omega
  · intro h; rw [h]

theorem lexLt_pad2_append {m n : Nat} (hm : m ≤ 99) (hn : n ≤ 99) (as bs : List Char) :
    (lexLt (pad2 m ++ as) (pad2 n ++ bs) = true) ↔
      (m < n ∨ (m = n ∧ lexLt as bs = true)) := by
  rw [@lexLt_append_congr (pad2 m) (pad2 n) as bs rfl, pad2_lt_iff hm hn, pad2_inj hm hn]

theorem lexLt_pad4_append {m n : Nat} (hm : m ≤ 9999) (hn : n ≤ 9999) (as bs : List Char) :
    (lexLt (pad4 m ++ as) (pad4 n ++ bs) = true) ↔
      (m < n ∨ (m = n ∧ lexLt as bs = true)) := by
  unfold pad4
  rw [List.append_assoc, List.append_assoc,
    lexLt_pad2_append (by omega) (by omega), lexLt_pad2_append (by omega) (by omega)]
  constructor
  · rintro (h | ⟨he, (h | ⟨he2, h⟩)⟩)
    · left; omega
    · left; omega
    · right; exact ⟨by omega, h⟩
  · rintro (h | ⟨he, h⟩)
    · rcases Nat.lt_or_ge (m / 100) (n / 100) with h2 | h2
      · left; exact h2
      · right; exact ⟨by omega, Or.inl (by omega)⟩
    · right; exact ⟨by omega, Or.inr ⟨by omega, h⟩⟩

theorem eq_pad2_append {m n : Nat} (hm : m ≤ 99) (hn : n ≤ 99) (as bs : List Char) :
    (pad2 m ++ as = pad2 n ++ bs) ↔ (m = n ∧ as = bs) := by
  rw [@eq_append_congr (pad2 m) (pad2 n) as bs rfl, pad2_inj hm hn]

theorem eq_pad4_append {m n : Nat} (hm : m ≤ 9999) (hn : n ≤ 9999) (as bs : List Char) :
    (pad4 m ++ as = pad4 n ++ bs) ↔ (m = n ∧ as = bs) := by
  unfold pad4
  rw [List.append_assoc, List.append_assoc,
    eq_pad2_append (by omega) (by omega), eq_pad2_append (by omega) (by omega)]
  constructor
  · rintro ⟨h1, h2, h3⟩
    exact ⟨by omega, h3⟩
  · rintro ⟨h1, h3⟩
    exact ⟨by omega, by omega, h3⟩

/-! ### Timestamp validity bounds -/

theorem daysInMonth_le_31 (y m : Nat) : daysInMonth y m ≤ 31 := by
  unfold daysInMonth
  split_ifs <;> omega

theorem validDT_bounds {dt : DateTime} (h : validDT dt = true) :
    1 ≤ dt.year ∧ dt.year ≤ 9999 ∧ 1 ≤ dt.month ∧ dt.month ≤ 12 ∧
    1 ≤ dt.day ∧ dt.day ≤ 31 ∧ dt.hour ≤ 23 ∧ dt.minute ≤ 59 ∧ dt.second ≤ 59 := by
  simp only [validDT, Bool.and_eq_true, decide_eq_true_eq] at h
  have hdim : daysInMonth dt.year dt.month ≤ 31 := daysInMonth_le_31 dt.year dt.month
  omega

theorem parse_ts_valid {l : List Char} {dt : DateTime} (h : parse_ts l = some dt) :
    validDT dt = true := by
  unfold parse_ts at h
  cases ht : tsTokenize l with
  | none => rw [ht] at h; cases h
  | some dt2 =>
    simp only [ht] at h
    by_cases hv : validDT dt2 = true
    · rw [if_pos hv] at h
      cases h
      exact hv
    · rw [if_neg hv] at h
      cases h

/-! ### The hour key orders chronologically -/

theorem hourString_lt_iff {a b : DateTime} (ha : validDT a = true) (hb : validDT b = true) :
    (lexLt (hourString a) (hourString b) = true) ↔ hourBucketLt a b := by
  obtain ⟨hay1, hay2, ham1, ham2, had1, had2, hah, _, _⟩ := validDT_bounds ha
  obtain ⟨hby1, hby2, hbm1, hbm2, hbd1, hbd2, hbh, _, _⟩ := validDT_bounds hb
  unfold hourString
  rw [lexLt_pad4_append hay2 hby2, lexLt_cons_same,
    lexLt_pad2_append (by omega) (by omega), lexLt_cons_same,
    lexLt_pad2_append (by omega) (by omega), lexLt_cons_same,
    lexLt_pad2_append (by omega) (by omega), lexLt_irrefl]
  unfold hourBucketLt
  simp

theorem hourString_eq_iff {a b : DateTime} (ha : validDT a = true) (hb : validDT b = true) :
    (hourString a = hourString b) ↔ hourBucket a = hourBucket b := by
  obtain ⟨hay1, hay2, ham1, ham2, had1, had2, hah, _, _⟩ := validDT_bounds ha
  obtain ⟨hby1, hby2, hbm1, hbm2, hbd1, hbd2, hbh, _, _⟩ := validDT_bounds hb
  unfold hourString
  rw [eq_pad4_append hay2 hby2, List.cons.injEq,
    eq_pad2_append (by omega) (by omega), List.cons.injEq,
    eq_pad2_append (by omega) (by omega), List.cons.injEq,
    eq_pad2_append (by omega) (by omega)]
  unfold hourBucket
  simp only [Prod.mk.injEq]
  tauto

/-! ### Extraction, transformation and pipeline lemmas -/

theorem logMatch_nil : logMatch [] = none := rfl

theorem extract_single_match {line : List Char} {g : MatchGroups}
    (h : logMatch (pyStrip line) = some g) :
    extract_apache_logs [line] = ⟨[rowOfGroups g], []⟩ := by
  have h1 : pyStrip line ≠ [] := by
    intro he
    rw [he, logMatch_nil] at h
    cases h
  simp [extract_apache_logs, extractFrom, h1, h]

theorem extract_single_nomatch {line : List Char} (h1 : pyStrip line ≠ [])
    (h2 : logMatch (pyStrip line) = none) :
    extract_apache_logs [line] = ⟨[], [(1, pyStrip line)]⟩ := by
  simp [extract_apache_logs, extractFrom, h1, h2]

theorem toRecord_none {row : Row} (h : parse_ts row.ts = none) : toRecord row = none := by
  unfold toRecord
  rw [h]

theorem toRecord_fields {row : Row} {rec : Record} (h : toRecord row = some rec) :
    rec.status = row.status ∧ rec.status_class = row.status / 100 ∧
    rec.is_error = decide (400 ≤ row.status) ∧ rec.size = row.size ∧
    rec.ip = row.ip ∧ rec.path = row.path ∧ rec.hour = hourString rec.timestamp ∧
    parse_ts row.ts = some rec.timestamp := by
  unfold toRecord at h
  cases hp : parse_ts row.ts with
  | none => rw [hp] at h; cases h
  | some dt =>
    simp only [hp] at h
    cases h
    exact ⟨rfl, rfl, rfl, rfl, rfl, rfl, rfl, rfl⟩

theorem transform_nil : transform_apache_logs [] = Except.error emptyErrMsg := rfl

theorem transform_some {rows : List Row} (h : rows ≠ []) :
    transform_apache_logs rows = Except.ok (rows.filterMap toRecord) := by
  unfold transform_apache_logs
  rw [if_neg h]

theorem transform_cons_skip {row : Row} {rows : List Row} (h : parse_ts row.ts = none) :
    transform_apache_logs (row :: rows) = Except.ok (rows.filterMap toRecord) := by
  rw [transform_some (by simp), List.filterMap_cons, toRecord_none h]

theorem run_pipeline_error {lines : List (List Char)}
    (h : (extract_apache_logs lines).rows = []) :
    run_pipeline lines = Except.error emptyErrMsg := by
  simp [run_pipeline, transform_apache_logs, h]

theorem run_pipeline_ok {lines : List (List Char)}
    (h : (extract_apache_logs lines).rows ≠ []) :
    run_pipeline lines = Except.ok
      ((extract_apache_logs lines).rows.filterMap toRecord,
       build_kpis ((extract_apache_logs lines).rows.filterMap toRecord),
       (extract_apache_logs lines).skipped) := by
  simp [run_pipeline, transform_apache_logs, h]

/-! ### Aggregation lemmas -/

instance : IsTotal (List Char) (fun a b => lexLe a b = true) :=
  ⟨lexLe_total⟩

instance : IsTrans (List Char) (fun a b => lexLe a b = true) :=
  ⟨fun _ _ _ => lexLe_trans⟩

instance : IsTotal (List Char × Nat) (fun a b => b.2 ≤ a.2) :=
  ⟨fun a b => (Nat.le_total a.2 b.2).symm⟩

instance : IsTrans (List Char × Nat) (fun a b => b.2 ≤ a.2) :=
  ⟨fun _ _ _ h1 h2 => Nat.le_trans h2 h1⟩

instance : IsTotal (List Char × Nat) (fun a b => lexLe a.1 b.1 = true) :=
  ⟨fun a b => lexLe_total a.1 b.1⟩

instance : IsTrans (List Char × Nat) (fun a b => lexLe a.1 b.1 = true) :=
  ⟨fun _ _ _ => lexLe_trans⟩

theorem mem_sortByCountDesc {x : List Char × Nat} {l : List (List Char × Nat)} :
    x ∈ sortByCountDesc l ↔ x ∈ l := List.mem_insertionSort _

theorem mem_sortByKeyAsc {x : List Char × Nat} {l : List (List Char × Nat)} :
    x ∈ sortByKeyAsc l ↔ x ∈ l := List.mem_insertionSort _

theorem mem_groupCounts_of_mem (key : Record → List Char) {recs : List Record} {r : Record}
    (h : r ∈ recs) :
    (key r, recs.countP (fun x => key x == key r)) ∈ groupCounts key recs ∧
    1 ≤ recs.countP (fun x => key x == key r) := by
  constructor
  · unfold groupCounts
    exact List.mem_map_of_mem _
      ((List.mem_insertionSort _).mpr (List.mem_dedup.mpr (List.mem_map_of_mem key h)))
  · have : 0 < recs.countP (fun x => key x == key r) :=
      List.countP_pos_iff.mpr ⟨r, h, beq_self_eq_true (key r)⟩
    omega

theorem countP_add_le {α : Type} (p q s : α → Bool) (l : List α)
    (h : ∀ a ∈ l, (p a = true → s a = true) ∧ (q a = true → s a = true) ∧
      ¬(p a = true ∧ q a = true)) :
    l.countP p + l.countP q ≤ l.countP s := by
  induction l with
  | nil => simp
  | cons a l ih =>
    have ha := h a (by simp)
    have ht := ih (fun x hx => h x (by simp [hx]))
    simp only [List.countP_cons]
    cases hp : p a <;> cases hq : q a <;> cases hs : s a <;> simp_all <;> omega

theorem errorsOf_length (recs : List Record) :
    (errorsOf recs).length = recs.countP (·.is_error) := by
  unfold errorsOf
  rw [List.countP_eq_length_filter]

/-! ### Concrete inputs used by the witnesses -/

/-- Groups of the example line
`10.0.0.1 - - [10/Oct/2023:13:55:36 -0700] "GET /a HTTP/1.1" 200 512`. -/
def exGroups : MatchGroups :=
  ⟨"10.0.0.1".data, "-".data, "-".data, "10/Oct/2023:13:55:36 -0700".data,
   "GET".data, "/a".data, "HTTP/1.1".data, "200".data, "512".data⟩

/-- The same groups with the unknown-size marker as size token. -/
def exGroupsDash : MatchGroups := { exGroups with size := "-".data }

/-- The same groups with the out-of-range status `600`. -/
def exGroups600 : MatchGroups := { exGroups with status := "600".data }

def exLine200 : List Char :=
  "10.0.0.1 - - [10/Oct/2023:13:55:36 -0700] \"GET /a HTTP/1.1\" 200 512".data

def garbageLine : List Char := "garbage line".data

/-- A timestamp with a misspelled month. -/
def badTsMonth : List Char := "10/Oxt/2023:13:55:36 -0700".data

/-- A timestamp with no UTC offset. -/
def badTsNoOff : List Char := "10/Oct/2023:13:55:36".data

/-- An impossible calendar date. -/
def badTsFeb31 : List Char := "31/Feb/2023:10:00:00 +0000".data

def exRow200 : Row :=
  ⟨"10.0.0.1".data, "10/Oct/2023:13:55:36 -0700".data, "GET".data, "/a".data,
   "HTTP/1.1".data, 200, 512⟩

def exRow600 : Row := { exRow200 with status := 600 }

def exRowBadTs : Row := { exRow200 with ts := badTsMonth }

def exRowBadTs2 : Row := { exRow200 with ts := badTsNoOff }

def exRowBadTs3 : Row := { exRow200 with ts := badTsFeb31 }

def exRowLater : Row := { exRow200 with ts := "10/Oct/2023:14:05:00 -0700".data }

def exDT : DateTime := ⟨2023, 10, 10, 13, 55, 36, -25200⟩

def exDTLater : DateTime := ⟨2023, 10, 10, 14, 5, 0, -25200⟩

def exHour13 : List Char := "2023-10-10 13:00:00".data

def exHour14 : List Char := "2023-10-10 14:00:00".data

def exRec200 : Record :=
  ⟨exDT, "10.0.0.1".data, "GET".data, "/a".data, "HTTP/1.1".data,
   200, 2, 512, exHour13, false⟩

def exRec600 : Record :=
  ⟨exDT, "10.0.0.1".data, "GET".data, "/a".data, "HTTP/1.1".data,
   600, 6, 512, exHour13, true⟩

def exRecLater : Record :=
  ⟨exDTLater, "10.0.0.1".data, "GET".data, "/a".data, "HTTP/1.1".data,
   200, 2, 512, exHour14, false⟩

/-! ### The claims -/

/-- C1: for every input line that matches the fixed grammar the parser
returns exactly the component substrings as written (`ip`, `path`,
`status` among them); conversely a successful parse only ever arises
from such a line; and a non-matching line is skipped and reported as a
diagnostic.  The parser is a total function into `Option`, so malformed
input can never raise. -/
theorem claim_C1_parser_roundtrip :
    (∀ g : MatchGroups, goodGroups g →
      logMatch (assemble g) = some g ∧
      (rowOfGroups g).ip = g.ip ∧ (rowOfGroups g).path = g.path ∧
      (rowOfGroups g).status = natOfDigits g.status) ∧
    (∀ (l : List Char) (g : MatchGroups), logMatch l = some g →
      goodGroups g ∧ l = assemble g) ∧
    (∀ line : List Char, pyStrip line ≠ [] → logMatch (pyStrip line) = none →
      extract_apache_logs [line] = ⟨[], [(1, pyStrip line)]⟩) := by
  refine ⟨?_, ?_, ?_⟩
  · intro g hg
    exact ⟨logMatch_complete hg, rfl, rfl, rfl⟩
  · intro l g h
    exact logMatch_sound h
  · intro line h1 h2
    exact extract_single_nomatch h1 h2

theorem claim_C1_parser_roundtrip_witness :
    (logMatch (assemble exGroups) = some exGroups ∧
      (rowOfGroups exGroups).ip = exGroups.ip ∧
      (rowOfGroups exGroups).path = exGroups.path ∧
      (rowOfGroups exGroups).status = natOfDigits exGroups.status) ∧
    (goodGroups exGroups ∧ assemble exGroups = assemble exGroups) ∧
    extract_apache_logs [garbageLine] = ⟨[], [(1, pyStrip garbageLine)]⟩ := by
  refine ⟨claim_C1_parser_roundtrip.1 exGroups (by decide), ?_, ?_⟩
  · exact claim_C1_parser_roundtrip.2.1 (assemble exGroups) exGroups
      (claim_C1_parser_roundtrip.1 exGroups (by decide)).1
  · exact claim_C1_parser_roundtrip.2.2 garbageLine (by decide) (by decide)

/-- C9: on every grammar-matching line the size token parses to exactly
its integer value when it consists only of digits, and any non-digit
size token coerces to `0`; the line is parsed to a row either way. -/
theorem claim_C9_size_coercion :
    ∀ g : MatchGroups, goodGroups g →
      logMatch (assemble g) = some g ∧
      (g.size.all Char.isDigit = true → (rowOfGroups g).size = natOfDigits g.size) ∧
      (g.size.all Char.isDigit = false → (rowOfGroups g).size = 0) := by
  intro g hg
  refine ⟨logMatch_complete hg, ?_, ?_⟩
  · intro hd
    unfold rowOfGroups
    simp only [hd, if_true]
  · intro hd
    unfold rowOfGroups
    simp only [hd, Bool.false_eq_true, if_false]

theorem claim_C9_size_coercion_witness :
    ((rowOfGroups exGroups).size = natOfDigits exGroups.size) ∧
    ((rowOfGroups exGroupsDash).size = 0) ∧
    logMatch (assemble exGroupsDash) = some exGroupsDash :=
  ⟨(claim_C9_size_coercion exGroups (by decide)).2.1 (by decide),
   (claim_C9_size_coercion exGroupsDash (by decide)).2.2 (by decide),
   (claim_C9_size_coercion exGroupsDash (by decide)).1⟩

/-- C2 counterexample: the transformer produces a CanonicalRecord with
`statusClass = 6` (outside 1–5) from the parser-accepted status `600`,
so the claim that every produced record's class lies in 1–5 is false. -/
theorem claim_C2_counterexample :
    (transform_apache_logs [exRow600]).map (fun recs => recs.map (·.status_class)) =
      Except.ok [6] ∧ ¬(1 ≤ (6 : Nat) ∧ (6 : Nat) ≤ 5) := by
  constructor
  · rfl
  · decide

/-- C2 (amended): for every CanonicalRecord produced by the transformer,
`statusClass` equals the integer division of `status` by 100 and
`isError` holds iff `status ≥ 400`; the class lies in 1–5 whenever the
status lies in 100–599 (the parser admits any three-digit status
000–999, so classes 0 and 6–9 can also occur, per C10). -/
theorem claim_C2_amended :
    ∀ (row : Row) (rec : Record), toRecord row = some rec →
      rec.status_class = rec.status / 100 ∧
      (rec.is_error = true ↔ 400 ≤ rec.status) ∧
      (100 ≤ rec.status → rec.status ≤ 599 →
        1 ≤ rec.status_class ∧ rec.status_class ≤ 5) := by
  intro row rec h
  obtain ⟨hs, hc, he, _⟩ := toRecord_fields h
  refine ⟨by rw [hc, hs], ?_, ?_⟩
  · rw [he, hs]
    simp
  · intro h1 h2
    rw [hs] at h1 h2
    rw [hc]
    omega

theorem claim_C2_amended_witness :
    exRec200.status_class = exRec200.status / 100 ∧
    (exRec200.is_error = true ↔ 400 ≤ exRec200.status) ∧
    (100 ≤ exRec200.status → exRec200.status ≤ 599 →
      1 ≤ exRec200.status_class ∧ exRec200.status_class ≤ 5) :=
  claim_C2_amended exRow200 exRec200 (by decide)

/-- C3: a run whose extraction yields zero parsed rows fails with the
fatal unusable-input error; a run with at least one parsed row always
succeeds, so per-line grammar mismatches alone never fail the run. -/
theorem claim_C3_zero_parsed :
    (∀ lines : List (List Char), (extract_apache_logs lines).rows = [] →
      run_pipeline lines = Except.error emptyErrMsg) ∧
    (∀ lines : List (List Char), (extract_apache_logs lines).rows ≠ [] →
      ∃ out, run_pipeline lines = Except.ok out) := by
  constructor
  · intro lines h
    exact run_pipeline_error h
  · intro lines h
    exact ⟨_, run_pipeline_ok h⟩

theorem claim_C3_zero_parsed_witness :
    run_pipeline [garbageLine] = Except.error emptyErrMsg ∧
    (∃ out, run_pipeline [exLine200, garbageLine] = Except.ok out) :=
  ⟨claim_C3_zero_parsed.1 [garbageLine] (by decide),
   claim_C3_zero_parsed.2 [exLine200, garbageLine] (by decide)⟩

/-- C4 counterexample: on an input file in which zero lines match the
grammar the pipeline does not yield zero-valued aggregates — it fails
with the fatal empty-input `ValueError`. -/
theorem claim_C4_counterexample :
    run_pipeline [garbageLine] = Except.error emptyErrMsg := by
  rfl

/-- C4 (amended): an input file in which zero lines match the grammar
makes the run fail with the fatal unusable-input error (consistent with
C3); it does not produce `totalRequests == 0` aggregates. -/
theorem claim_C4_amended :
    ∀ lines : List (List Char), (extract_apache_logs lines).rows = [] →
      run_pipeline lines = Except.error emptyErrMsg :=
  fun _ h => run_pipeline_error h

theorem claim_C4_amended_witness :
    run_pipeline [['x'], ['y', 'z']] = Except.error emptyErrMsg :=
  claim_C4_amended [['x'], ['y', 'z']] (by decide)

/-- C5: if at least one line parsed but every ParsedLine is dropped by
the timestamp stage, the run does not fail: the transform returns the
empty record set, and on it the aggregator produces all-zero counts
with rate exactly 0 and three empty breakdowns. -/
theorem claim_C5_all_dropped :
    ∀ rows : List Row, rows ≠ [] → (∀ r ∈ rows, parse_ts r.ts = none) →
      transform_apache_logs rows = Except.ok [] ∧
      build_kpis [] = ⟨⟨0, 0, 0, 0⟩, [], [], []⟩ := by
  intro rows h1 h2
  constructor
  · rw [transform_some h1]
    exact congrArg Except.ok
      (List.filterMap_eq_nil_iff.mpr fun r hr => toRecord_none (h2 r hr))
  · rfl

theorem claim_C5_all_dropped_witness :
    transform_apache_logs [exRowBadTs] = Except.ok [] ∧
    build_kpis [] = ⟨⟨0, 0, 0, 0⟩, [], [], []⟩ :=
  claim_C5_all_dropped [exRowBadTs] (by decide) (by decide)

/-- C6: a ParsedLine whose timestamp text does not parse under
`%d/%b/%Y:%H:%M:%S %z` produces no CanonicalRecord; the transform still
succeeds and its output is exactly that of the remaining rows (the row
is dropped silently), and a grammar-matching line contributes no
skipped-line diagnostic, so the drop carries no distinct diagnostic. -/
theorem claim_C6_silent_drop :
    (∀ row : Row, parse_ts row.ts = none → toRecord row = none) ∧
    (∀ (row : Row) (rows : List Row), parse_ts row.ts = none →
      transform_apache_logs (row :: rows) = Except.ok (rows.filterMap toRecord)) ∧
    (∀ (line : List Char) (g : MatchGroups), logMatch (pyStrip line) = some g →
      extract_apache_logs [line] = ⟨[rowOfGroups g], []⟩) :=
  ⟨fun _ h => toRecord_none h,
   fun _ _ h => transform_cons_skip h,
   fun _ _ h => extract_single_match h⟩

theorem claim_C6_silent_drop_witness :
    toRecord exRowBadTs = none ∧
    transform_apache_logs [exRowBadTs2, exRow200] =
      Except.ok ([exRow200].filterMap toRecord) ∧
    toRecord exRowBadTs3 = none ∧
    extract_apache_logs [exLine200] = ⟨[rowOfGroups exGroups], []⟩ :=
  ⟨claim_C6_silent_drop.1 exRowBadTs (by decide),
   claim_C6_silent_drop.2.1 exRowBadTs2 [exRow200] (by decide),
   claim_C6_silent_drop.1 exRowBadTs3 (by decide),
   claim_C6_silent_drop.2.2 exLine200 exGroups (by decide)⟩

/-- C7: for every record set, the aggregator's `errors_by_path` and
`errors_by_ip` outputs are non-increasing in `error_count`, and its
`errors_by_hour` output is non-decreasing in the hour key. -/
theorem claim_C7_breakdown_order (recs : List Record) :
    ((build_kpis recs).errors_by_path).Pairwise (fun a b => b.2 ≤ a.2) ∧
    ((build_kpis recs).errors_by_ip).Pairwise (fun a b => b.2 ≤ a.2) ∧
    ((build_kpis recs).errors_by_hour).Pairwise (fun a b => lexLe a.1 b.1 = true) := by
  refine ⟨?_, ?_, ?_⟩ <;>
    · simp only [build_kpis, sortByCountDesc, sortByKeyAsc]
      exact List.sorted_insertionSort _ _

/-- C8: each record's `hour` field is its timestamp truncated to the
hour boundary and rendered as the fixed-width string
`YYYY-MM-DD HH:00:00`, and for every pair of records the lexicographic
order (and equality) of the two hour strings coincides with the
chronological order (and equality) of the two wall-clock hour buckets. -/
theorem claim_C8_hour_key (r1 r2 : Row) (rec1 rec2 : Record)
    (h1 : toRecord r1 = some rec1) (h2 : toRecord r2 = some rec2) :
    rec1.hour = renderDT (truncHour rec1.timestamp) ∧
    (lexLt rec1.hour rec2.hour = true ↔
      hourBucketLt rec1.timestamp rec2.timestamp) ∧
    (rec1.hour = rec2.hour ↔ hourBucket rec1.timestamp = hourBucket rec2.timestamp) := by
  obtain ⟨_, _, _, _, _, _, hh1, hp1⟩ := toRecord_fields h1
  obtain ⟨_, _, _, _, _, _, hh2, hp2⟩ := toRecord_fields h2
  have hv1 : validDT rec1.timestamp = true := parse_ts_valid hp1
  have hv2 : validDT rec2.timestamp = true := parse_ts_valid hp2
  refine ⟨?_, ?_, ?_⟩
  · rw [hh1]
    unfold renderDT truncHour hourString
    norm_num [pad2, digitChar]
  · rw [hh1, hh2, hourString_lt_iff hv1 hv2]
  · rw [hh1, hh2, hourString_eq_iff hv1 hv2]

theorem claim_C8_hour_key_witness :
    (exRec200.hour = renderDT (truncHour exRec200.timestamp) ∧
      (lexLt exRec200.hour exRecLater.hour = true ↔
        hourBucketLt exRec200.timestamp exRecLater.timestamp) ∧
      (exRec200.hour = exRecLater.hour ↔
        hourBucket exRec200.timestamp = hourBucket exRecLater.timestamp)) :=
  claim_C8_hour_key exRow200 exRowLater exRec200 exRecLater (by decide) (by decide)

/-- C10: the parser accepts any three-digit status token (000–999)
without range validation; a CanonicalRecord with status ≥ 600 has
`isError` true — so it is counted in the error total behind
`error_rate_pct` and appears in all three error breakdowns — but its
class is neither 4 nor 5, so `errors_4xx + errors_5xx` is at most, and
can be strictly less than, the error count, as the concrete run with a
600 status shows. -/
theorem claim_C10_status_range :
    (∀ g : MatchGroups, goodGroups g → logMatch (assemble g) = some g ∧
      (rowOfGroups g).status = natOfDigits g.status) ∧
    (∀ (row : Row) (rec : Record), toRecord row = some rec → 600 ≤ rec.status →
      rec.is_error = true ∧ rec.status_class ≠ 4 ∧ rec.status_class ≠ 5) ∧
    (∀ (rows : List Row) (recs : List Record),
      transform_apache_logs rows = Except.ok recs →
      (build_kpis recs).summary.errors_4xx + (build_kpis recs).summary.errors_5xx ≤
        (errorsOf recs).length) ∧
    (∀ (recs : List Record) (r : Record), r ∈ recs → r.is_error = true →
      (∃ c, (r.path, c) ∈ (build_kpis recs).errors_by_path ∧ 1 ≤ c) ∧
      (∃ c, (r.ip, c) ∈ (build_kpis recs).errors_by_ip ∧ 1 ≤ c) ∧
      (∃ c, (r.hour, c) ∈ (build_kpis recs).errors_by_hour ∧ 1 ≤ c)) ∧
    (build_kpis [exRec600]).summary.errors_4xx + (build_kpis [exRec600]).summary.errors_5xx <
      (errorsOf [exRec600]).length := by
  refine ⟨?_, ?_, ?_, ?_, ?_⟩
  · intro g hg
    exact ⟨logMatch_complete hg, rfl⟩
  · intro row rec h h600
    obtain ⟨hs, hc, he, _⟩ := toRecord_fields h
    rw [hs] at h600
    refine ⟨by rw [he]; simp; omega, by rw [hc]; omega, by rw [hc]; omega⟩
  · intro rows recs h
    by_cases hrows : rows = []
    · rw [hrows, transform_nil] at h
      cases h
    · rw [transform_some hrows] at h
      cases h
      have hcoh : ∀ r ∈ rows.filterMap toRecord,
          ((r.status_class == 4) = true → r.is_error = true) ∧
          ((r.status_class == 5) = true → r.is_error = true) ∧
          ¬((r.status_class == 4) = true ∧ (r.status_class == 5) = true) := by
        intro r hr
        obtain ⟨row, _, hrow⟩ := List.mem_filterMap.mp hr
        obtain ⟨hs, hc, he, _⟩ := toRecord_fields hrow
        simp only [beq_iff_eq]
        refine ⟨?_, ?_, ?_⟩
        · intro h4
          rw [hc] at h4
          rw [he]
          simp
          omega
        · intro h5
          rw [hc] at h5
          rw [he]
          simp
          omega
        · rintro ⟨h4, h5⟩
          rw [h4] at h5
          cases h5
      simp only [build_kpis, errorsOf_length]
      exact countP_add_le _ _ _ _ hcoh
  · intro recs r hr he
    have hrE : r ∈ errorsOf recs := List.mem_filter.mpr ⟨hr, he⟩
    refine ⟨⟨_, ?_, (mem_groupCounts_of_mem (fun x => x.path) hrE).2⟩,
      ⟨_, ?_, (mem_groupCounts_of_mem (fun x => x.ip) hrE).2⟩,
      ⟨_, ?_, (mem_groupCounts_of_mem (fun x => x.hour) hrE).2⟩⟩
    · simp only [build_kpis]
      exact mem_sortByCountDesc.mpr (mem_groupCounts_of_mem (fun x => x.path) hrE).1
    · simp only [build_kpis]
      exact mem_sortByCountDesc.mpr (mem_groupCounts_of_mem (fun x => x.ip) hrE).1
    · simp only [build_kpis]
      exact mem_sortByKeyAsc.mpr (mem_groupCounts_of_mem (fun x => x.hour) hrE).1
  · decide

theorem claim_C10_status_range_witness :
    (logMatch (assemble exGroups600) = some exGroups600 ∧
      (rowOfGroups exGroups600).status = natOfDigits exGroups600.status) ∧
    (exRec600.is_error = true ∧ exRec600.status_class ≠ 4 ∧ exRec600.status_class ≠ 5) ∧
    ((build_kpis [exRec600]).summary.errors_4xx + (build_kpis [exRec600]).summary.errors_5xx ≤
      (errorsOf [exRec600]).length) ∧
    ((∃ c, (exRec600.path, c) ∈ (build_kpis [exRec600]).errors_by_path ∧ 1 ≤ c) ∧
     (∃ c, (exRec600.ip, c) ∈ (build_kpis [exRec600]).errors_by_ip ∧ 1 ≤ c) ∧
     (∃ c, (exRec600.hour, c) ∈ (build_kpis [exRec600]).errors_by_hour ∧ 1 ≤ c)) :=
  ⟨claim_C10_status_range.1 exGroups600 (by decide),
   claim_C10_status_range.2.1 exRow600 exRec600 (by decide) (by decide),
   claim_C10_status_range.2.2.1 [exRow600] [exRec600] (by rfl),
   claim_C10_status_range.2.2.2.1 [exRec600] exRec600 (by decide) (by decide)⟩
